import Mathlib

/-!
# Verification of the poly-sdk realtime subscription client and scripts

Shallow embedding of the repository's demo scripts (redemption loop,
user-channel end-to-end test) and of the realtime subscription client
(`RealtimeServiceV2`) whose behaviour the specification describes.
The scripts live in the repository; the realtime client itself is only
called by them, so its operations are modelled from the specification.
-/

namespace PolySdk

/-! ## E2E test script: result recording, summary and exit code
    (scripts/test-user-channel-e2e.ts) -/

/-- One recorded step of the e2e test script (`interface TestResult`). -/
structure TestResult where
  step : String
  success : Bool
  message : String
deriving DecidableEq, Repr

/-- `results.filter(r => r.success).length` from the summary section. -/
def passedCount (rs : List TestResult) : Nat :=
  (rs.filter (fun r => r.success)).length

/-- `results.filter(r => !r.success).length` from the summary section. -/
def failedCount (rs : List TestResult) : Nat :=
  (rs.filter (fun r => !r.success)).length

/-- `process.exit(failed > 0 ? 1 : 0)` from the summary section. -/
def exitCode (rs : List TestResult) : Nat :=
  if failedCount rs > 0 then 1 else 0

/-! ## Redemption script: per-position decision logic
    (redeem script in src/unnamed/part_000, `main` loop) -/

/-- A JavaScript number as produced by `parseFloat`: `none` is `NaN`
    (every comparison with `NaN` is false). -/
def JsNum := Option ℚ

/-- `x > 0` on a JavaScript number; false for `NaN`. -/
def jsGtZero : JsNum → Bool
  | none => false
  | some q => decide (0 < q)

/-- One entry of `market.tokens` as the script reads it. -/
structure MToken where
  outcome : String
  tokenId : Option String
  winner : Bool
deriving DecidableEq, Repr

/-- The market object as the script reads it (`tokens` may be absent). -/
structure MarketInfo where
  tokens : Option (List MToken)
deriving DecidableEq, Repr

/-- `market.tokens?.find(t => t.outcome === 'Yes' || t.outcome === 'Up')`. -/
def findYes (ts : List MToken) : Option MToken :=
  ts.find? (fun t => t.outcome == "Yes" || t.outcome == "Up")

/-- `market.tokens?.find(t => t.outcome === 'No' || t.outcome === 'Down')`. -/
def findNo (ts : List MToken) : Option MToken :=
  ts.find? (fun t => t.outcome == "No" || t.outcome == "Down")

/-- JavaScript truthiness of `tok?.tokenId`: false when the token is
    absent, or its id is absent or the empty string. -/
def hasTokenId : Option MToken → Bool
  | none => false
  | some t =>
    match t.tokenId with
    | none => false
    | some s => !(s == "")

/-- Outcome of one iteration of the redemption loop for one position. -/
inductive RedeemDecision
  | errored
  | marketNotFound
  | tokensNotFound
  | noTokens
  | redeem
deriving DecidableEq, Repr

/-- The body of the redemption loop for one position: look the market up,
    find the Yes/Up and No/Down tokens, query the balances, and call
    `onchain.redeemByTokenIds` exactly when one parsed balance is > 0.
    A throw from `getMarket` or the balance query is caught by the outer
    `catch` and skips the position. -/
def processPosition (marketRes : Except String (Option MarketInfo))
    (balanceRes : Except String (JsNum × JsNum)) : RedeemDecision :=
  match marketRes with
  | .error _ => .errored
  | .ok none => .marketNotFound
  | .ok (some m) =>
    let toks := m.tokens.getD []
    if hasTokenId (findYes toks) && hasTokenId (findNo toks) then
      match balanceRes with
      | .error _ => .errored
      | .ok (yb, nb) =>
        if jsGtZero yb || jsGtZero nb then .redeem else .noTokens
    else .tokensNotFound

/-! ## Realtime subscription client

Modelled from the spec: the implementation of `RealtimeServiceV2`
(Connection Manager, Subscription Registry, Event Dispatcher, Realtime
Client facade) is not among the repository's visible files — the scripts
only call it — so the definitions below follow the specification's
component contracts (spec sections 3–5). -/

/-- Modelled from the spec: the credential triple `(key, secret, passphrase)`
    supplied per user-channel subscription. -/
structure Credentials where
  key : String
  secret : String
  passphrase : String
deriving DecidableEq, Repr

/-- Modelled from the spec: a subscription's kind and filter — market token
    identifiers, or the credential triple for the user channel. -/
inductive SubKind
  | market (tokenIds : List String)
  | user (creds : Credentials)
deriving DecidableEq, Repr

/-- Modelled from the spec: the channel key of an inbound data frame —
    a market token id, or "user" for the authenticated channel. -/
inductive ChannelKey
  | market (tokenId : String)
  | user
deriving DecidableEq, Repr

/-- Modelled from the spec: a decoded inbound data frame, identified by its
    channel key; the payload stands for the normalized Order/Trade Event. -/
structure InFrame where
  key : ChannelKey
  payload : String
deriving DecidableEq, Repr

/-- Modelled from the spec: one registered Subscription in the Registry.
    `cbThrows f` says whether the caller-supplied data callback raises an
    error when invoked on frame `f`. -/
structure Subscription where
  handle : Nat
  kind : SubKind
  active : Bool
  cbThrows : InFrame → Bool

/-- Does a subscription's filter match a channel key? -/
def SubKind.channelMatch : SubKind → ChannelKey → Bool
  | .market ids, .market t => ids.contains t
  | .user _, .user => true
  | _, _ => false

/-- A frame is addressed to a subscription when the subscription is active
    and its filter matches the frame's channel key. -/
def Subscription.matches (s : Subscription) (f : InFrame) : Bool :=
  s.active && s.kind.channelMatch f.key

/-- Channel of an outbound frame. -/
inductive Channel
  | market
  | user
deriving DecidableEq, Repr

/-- Channel of a subscription kind. -/
def SubKind.channel : SubKind → Channel
  | .market _ => .market
  | .user _ => .user

/-- Filters of a subscription kind (token ids; the user channel has none). -/
def SubKind.filters : SubKind → List String
  | .market ids => ids
  | .user _ => []

/-- Auth data of a subscription kind: the credential triple for the user
    channel, nothing for market channels. -/
def SubKind.auth : SubKind → Option Credentials
  | .market _ => none
  | .user c => some c

/-- Modelled from the spec: an outbound wire frame
    (`{action, channel, filters, auth?}`). -/
inductive OutFrame
  | subscribe (channel : Channel) (filters : List String) (auth : Option Credentials)
  | unsubscribe (channel : Channel) (filters : List String)
deriving DecidableEq, Repr

/-- The subscribe frame sent for a subscription: its channel, filters and
    credential data, exactly as stored in the Registry. -/
def subscribeFrameOf (s : Subscription) : OutFrame :=
  .subscribe s.kind.channel s.kind.filters s.kind.auth

/-- Modelled from the spec: connection states of the per-client machine. -/
inductive ConnState
  | Disconnected
  | Connecting
  | Connected
  | Reconnecting
  | Closed
deriving DecidableEq, Repr

/-- Connection-level events the client raises to its listeners. -/
inductive ConnEvent
  | connected
  | disconnected
  | errored
deriving DecidableEq, Repr

/-- Modelled from the spec: the whole per-client state — connection state,
    the Subscription Registry, the outbound frame log, the count of
    transport-close actions, the timers, and the raised connection events. -/
structure ClientState where
  connState : ConnState
  autoReconnect : Bool
  subs : List Subscription
  nextHandle : Nat
  sent : List OutFrame
  closeCount : Nat
  heartbeatOn : Bool
  reconnectTimerOn : Bool
  events : List ConnEvent

/-- Registry `listActive`: snapshot of the active subscriptions. -/
def listActive (subs : List Subscription) : List Subscription :=
  subs.filter (fun s => s.active)

/-- Registry lookup of the active subscription with a given handle. -/
def findActive (h : Nat) (subs : List Subscription) : Option Subscription :=
  (listActive subs).find? (fun s => s.handle == h)

/-- Zero out the credential triple held by a subscription kind. -/
def scrub : SubKind → SubKind
  | .market ids => .market ids
  | .user _ => .user ⟨"", "", ""⟩

/-- Registry `remove`: mark the subscription inactive (dispatch lookup only
    returns active entries) and zero its credential triple. Calling it again
    is a no-op. -/
def registryRemove (h : Nat) (subs : List Subscription) : List Subscription :=
  subs.map (fun s =>
    if s.handle == h then { s with active := false, kind := scrub s.kind } else s)

/-- Registry `add`: allocate a fresh handle and store an active subscription
    carrying exactly the caller's filter/credential data. -/
def registryAdd (k : SubKind) (thr : InFrame → Bool) (st : ClientState) :
    Nat × ClientState :=
  (st.nextHandle,
   { st with
     subs := st.subs ++ [⟨st.nextHandle, k, true, thr⟩]
     nextHandle := st.nextHandle + 1 })

/-- Record a subscription and, when connected, send its subscribe frame. -/
def subscribeGeneric (k : SubKind) (thr : InFrame → Bool) (st : ClientState) :
    Nat × ClientState :=
  let p := registryAdd k thr st
  (p.1,
   if p.2.connState = ConnState.Connected then
     { p.2 with sent := p.2.sent ++ [subscribeFrameOf ⟨p.1, k, true, thr⟩] }
   else p.2)

/-- Facade `subscribeMarket`. -/
def subscribeMarket (ids : List String) (thr : InFrame → Bool) (st : ClientState) :
    Nat × ClientState :=
  subscribeGeneric (.market ids) thr st

/-- Facade `subscribeUserEvents`: the credential triple is attached to this
    subscription's outbound subscribe frame only. -/
def subscribeUserEvents (c : Credentials) (thr : InFrame → Bool) (st : ClientState) :
    Nat × ClientState :=
  subscribeGeneric (.user c) thr st

/-- Handle `unsubscribe`: remove from the Registry and, if connected and the
    handle is still active, send an unsubscribe frame. Never an error. -/
def unsubscribe (h : Nat) (st : ClientState) : Except String ClientState :=
  .ok { st with
        subs := registryRemove h st.subs
        sent := st.sent ++
          (if st.connState = ConnState.Connected then
            match findActive h st.subs with
            | some s => [.unsubscribe s.kind.channel s.kind.filters]
            | none => []
          else []) }

/-- The state after `unsubscribe` (which always returns `ok`). -/
def unsubRun (h : Nat) (st : ClientState) : ClientState :=
  match unsubscribe h st with
  | .ok st' => st'
  | .error _ => st

/-- `connect()`: idempotent; from Disconnected move to Connecting; a no-op
    when already Connected/Connecting and in the terminal Closed state. -/
def connect (st : ClientState) : ClientState :=
  if st.connState = ConnState.Disconnected then
    { st with connState := ConnState.Connecting }
  else st

/-- Handshake success: Connecting becomes Connected, the heartbeat starts,
    and a `connected` event is emitted. -/
def handshakeOk (st : ClientState) : ClientState :=
  if st.connState = ConnState.Connecting then
    { st with
      connState := ConnState.Connected
      heartbeatOn := true
      events := st.events ++ [ConnEvent.connected] }
  else st

/-- Unexpected transport loss while Connected: enter Reconnecting when
    `autoReconnect` is set, otherwise terminal Disconnected. -/
def transportLost (st : ClientState) : ClientState :=
  if st.connState = ConnState.Connected then
    if st.autoReconnect then
      { st with
        connState := ConnState.Reconnecting
        heartbeatOn := false
        reconnectTimerOn := true
        events := st.events ++ [ConnEvent.disconnected] }
    else
      { st with
        connState := ConnState.Disconnected
        heartbeatOn := false
        events := st.events ++ [ConnEvent.disconnected] }
  else st

/-- Successful reconnect: back to Connected, and the subscribe frame of every
    currently-active subscription is re-sent from its stored data. -/
def reconnectOk (st : ClientState) : ClientState :=
  if st.connState = ConnState.Reconnecting then
    { st with
      connState := ConnState.Connected
      heartbeatOn := true
      reconnectTimerOn := false
      events := st.events ++ [ConnEvent.connected]
      sent := st.sent ++ (listActive st.subs).map subscribeFrameOf }
  else st

/-- `disconnect()`: transition to Closed, stop the heartbeat and any pending
    reconnect timer, close the transport, purge the subscriptions, raise no
    further connection events. Idempotent: a no-op when already Closed. -/
def disconnect (st : ClientState) : ClientState :=
  if st.connState = ConnState.Closed then st
  else
    { st with
      connState := ConnState.Closed
      heartbeatOn := false
      reconnectTimerOn := false
      closeCount := st.closeCount + 1
      subs := [] }

/-- One callback invocation performed by the Event Dispatcher: either a
    normal data delivery, or — when the data callback raised — the error
    routed to the same subscription's `onError`. -/
inductive Invocation
  | deliver (handle : Nat) (f : InFrame)
  | onErrorCb (handle : Nat) (f : InFrame)
deriving DecidableEq, Repr

/-- The subscription handle an invocation targets. -/
def Invocation.target : Invocation → Nat
  | .deliver h _ => h
  | .onErrorCb h _ => h

/-- The frame an invocation carries. -/
def Invocation.frame : Invocation → InFrame
  | .deliver _ f => f
  | .onErrorCb _ f => f

/-- Modelled from the spec: dispatch of one decoded inbound frame. The
    Registry is looked up for the frame's channel key; every matching
    active subscription is invoked in registry order; a callback that
    raises is caught and turned into an `onError` invocation for that same
    subscription, and the remaining invocations still happen. -/
def dispatchOne (subs : List Subscription) (f : InFrame) : List Invocation :=
  (subs.filter (fun s => s.matches f)).map (fun s =>
    if s.cbThrows f then .onErrorCb s.handle f else .deliver s.handle f)

/-- Modelled from the spec: frames are processed strictly in the order they
    were received from the transport, one after the other. -/
def dispatchAll (subs : List Subscription) : List InFrame → List Invocation
  | [] => []
  | f :: rest => dispatchOne subs f ++ dispatchAll subs rest

/-- The invocations of a log that target a given handle, in order. -/
def invocationsFor (h : Nat) (log : List Invocation) : List Invocation :=
  log.filter (fun i => i.target == h)

/-- The callback-visible shape of an invocation: which subscription got
    which frame (erasing whether the callback threw). -/
def Invocation.shape (i : Invocation) : Nat × InFrame :=
  (i.target, i.frame)

/-- The dispatch-relevant data of a subscription: everything but the
    caller's callback behaviour. -/
def Subscription.strip (s : Subscription) : Nat × SubKind × Bool :=
  (s.handle, s.kind, s.active)

/-- Actions driving the per-client state machine: the facade's API calls
    plus the Connection Manager's internal transitions. -/
inductive Action
  | connectCall
  | handshake
  | lost
  | reconnected
  | subMarket (ids : List String)
  | subUser (c : Credentials)
  | unsub (h : Nat)
  | disconnectCall

/-- One step of the per-client state machine. -/
def stepAction : Action → ClientState → ClientState
  | .connectCall, st => connect st
  | .handshake, st => handshakeOk st
  | .lost, st => transportLost st
  | .reconnected, st => reconnectOk st
  | .subMarket ids, st => (subscribeMarket ids (fun _ => false) st).2
  | .subUser c, st => (subscribeUserEvents c (fun _ => false) st).2
  | .unsub h, st => unsubRun h st
  | .disconnectCall, st => disconnect st

/-- Run a sequence of actions from a state. -/
def runActions (acts : List Action) (st : ClientState) : ClientState :=
  match acts with
  | [] => st
  | a :: rest => runActions rest (stepAction a st)

/-- A freshly-created client: Disconnected, empty Registry, nothing sent. -/
def initialState (auto : Bool) : ClientState :=
  { connState := ConnState.Disconnected
    autoReconnect := auto
    subs := []
    nextHandle := 0
    sent := []
    closeCount := 0
    heartbeatOn := false
    reconnectTimerOn := false
    events := [] }

/-- Replace the credential triple inside a subscription kind (used to state
    that no other subscriber can observe the triple). -/
def replaceCreds (c : Credentials) : SubKind → SubKind
  | .market ids => .market ids
  | .user _ => .user c

/-- The same Registry with one subscription's credential triple replaced:
    the second run of the credential-noninterference comparison. -/
def setCreds (h : Nat) (c : Credentials) (subs : List Subscription) :
    List Subscription :=
  subs.map (fun s =>
    if s.handle == h then { s with kind := replaceCreds c s.kind } else s)

/-! ## Theorems -/

theorem failedCount_pos_iff (rs : List TestResult) :
    0 < failedCount rs ↔ ∃ r ∈ rs, r.success = false := by
  induction rs with
  | nil => simp [failedCount]
  | cons r rest ih =>
    simp only [failedCount, List.filter_cons] at ih ⊢
    cases hr : r.success
    · simp [hr]
    · simp [hr, ih]

theorem failedCount_eq_zero_iff (rs : List TestResult) :
    failedCount rs = 0 ↔ ∀ r ∈ rs, r.success = true := by
  induction rs with
  | nil => simp [failedCount]
  | cons r rest ih =>
    simp only [failedCount, List.filter_cons] at ih ⊢
    cases hr : r.success
    · simp [hr]
    · simp [hr, ih]

/-- C10: the e2e test script exits with code 1 iff some recorded
    `TestResult` has `success = false`, with code 0 exactly when every
    recorded step succeeded, and the passed/failed summary counts sum to
    the number of recorded results. -/
theorem e2e_exit_code_correct (rs : List TestResult) :
    passedCount rs + failedCount rs = rs.length
    ∧ (exitCode rs = 1 ↔ ∃ r ∈ rs, r.success = false)
    ∧ (exitCode rs = 0 ↔ ∀ r ∈ rs, r.success = true) := by
  refine ⟨?_, ?_, ?_⟩
  · induction rs with
    | nil => rfl
    | cons r rest ih =>
      simp only [passedCount, failedCount, List.filter_cons, List.length_cons] at ih ⊢
      cases hr : r.success <;> simp [hr] <;> omega
  · rw [exitCode]
    by_cases hpos : 0 < failedCount rs
    · simp [hpos, (failedCount_pos_iff rs).mp hpos]
    · have h0 : failedCount rs = 0 := by omega
      simp [hpos]
      exact (failedCount_eq_zero_iff rs).mp h0
  · rw [exitCode]
    by_cases hpos : 0 < failedCount rs
    · simp [hpos]
      exact (failedCount_pos_iff rs).mp hpos
    · have h0 : failedCount rs = 0 := by omega
      simp [hpos]
      exact (failedCount_eq_zero_iff rs).mp h0

/-- C10 witness: a run recording one failed step exits with code 1. -/
theorem e2e_exit_code_correct_witness :
    exitCode [⟨"Setup SDK", true, "ok"⟩, ⟨"Receive PLACEMENT", false, "Timeout"⟩] = 1 :=
  (e2e_exit_code_correct _).2.1.mpr
    ⟨⟨"Receive PLACEMENT", false, "Timeout"⟩, by simp, rfl⟩

/-- C9: the redemption loop calls `redeemByTokenIds` only when the market
    and both token ids resolve and one of the parsed balances is strictly
    positive; a missing market, missing token ids, or two non-positive
    balances all skip the position. -/
theorem redeem_only_with_positive_balance
    (m : Except String (Option MarketInfo)) (b : Except String (JsNum × JsNum)) :
    (processPosition m b = RedeemDecision.redeem →
      ∃ mi yb nb, m = Except.ok (some mi) ∧ b = Except.ok (yb, nb) ∧
        hasTokenId (findYes (mi.tokens.getD [])) = true ∧
        hasTokenId (findNo (mi.tokens.getD [])) = true ∧
        (jsGtZero yb || jsGtZero nb) = true)
    ∧ (∀ yb nb, b = Except.ok (yb, nb) → jsGtZero yb = false → jsGtZero nb = false →
        processPosition m b ≠ RedeemDecision.redeem)
    ∧ (m = Except.ok none → processPosition m b = RedeemDecision.marketNotFound)
    ∧ (∀ mi, m = Except.ok (some mi) →
        (hasTokenId (findYes (mi.tokens.getD [])) &&
          hasTokenId (findNo (mi.tokens.getD []))) = false →
        processPosition m b = RedeemDecision.tokensNotFound) := by
  refine ⟨?_, ?_, ?_, ?_⟩
  · intro hred
    cases m with
    | error e => simp [processPosition] at hred
    | ok mo =>
      cases mo with
      | none => simp [processPosition] at hred
      | some mi =>
        refine ⟨mi, ?_⟩
        by_cases htok : (hasTokenId (findYes (mi.tokens.getD [])) &&
            hasTokenId (findNo (mi.tokens.getD []))) = true
        · cases b with
          | error e => simp [processPosition, htok] at hred
          | ok p =>
            by_cases hbal : (jsGtZero p.1 || jsGtZero p.2) = true
            · simp only [Bool.and_eq_true] at htok
              exact ⟨p.1, p.2, rfl, rfl, htok.1, htok.2, hbal⟩
            · simp [processPosition, htok, hbal] at hred
        · simp [processPosition, htok] at hred
  · intro yb nb hb hy hn
    subst hb
    cases m with
    | error e => simp [processPosition]
    | ok mo =>
      cases mo with
      | none => simp [processPosition]
      | some mi =>
        simp only [processPosition, hy, hn]
        split <;> simp
  · intro hm
    subst hm
    rfl
  · intro mi hm htok
    subst hm
    simp [processPosition, htok]

/-- C9 witness: a position whose balances both parse to zero is skipped. -/
theorem redeem_only_with_positive_balance_witness :
    processPosition
      (Except.ok (some ⟨some [⟨"Yes", some "0xaa", true⟩, ⟨"No", some "0xbb", false⟩]⟩))
      (Except.ok ((some 0 : JsNum), (some 0 : JsNum))) ≠ RedeemDecision.redeem :=
  (redeem_only_with_positive_balance _ _).2.1 (some 0) (some 0) rfl rfl rfl

/-- C5: `disconnect()` is idempotent — from any not-yet-Closed state it
    performs exactly one transport-close action even when called twice,
    ends in Closed, stops the heartbeat and any pending reconnect timer,
    and raises no connection events; the second call changes nothing.
    (`disconnect` is a total function of the state, so no call can raise
    an error.) -/
theorem disconnect_idempotent (st : ClientState) :
    disconnect (disconnect st) = disconnect st
    ∧ (disconnect st).connState = ConnState.Closed
    ∧ (st.connState ≠ ConnState.Closed →
        (disconnect st).closeCount = st.closeCount + 1
        ∧ (disconnect (disconnect st)).closeCount = st.closeCount + 1
        ∧ (disconnect st).heartbeatOn = false
        ∧ (disconnect st).reconnectTimerOn = false
        ∧ (disconnect (disconnect st)).events = st.events)
    ∧ (st.connState = ConnState.Closed → disconnect st = st) := by
  by_cases h : st.connState = ConnState.Closed
  · simp [disconnect, h]
  · simp [disconnect, h]

/-- C5 witness: double disconnect of a fresh auto-reconnect client closes
    the transport exactly once and raises no events. -/
theorem disconnect_idempotent_witness :
    (initialState true).connState ≠ ConnState.Closed
    ∧ (disconnect (disconnect (initialState true))).closeCount =
        (initialState true).closeCount + 1
    ∧ (disconnect (disconnect (initialState true))).events =
        (initialState true).events := by
  have h := (disconnect_idempotent (initialState true)).2.2.1
    (by simp [initialState])
  exact ⟨by simp [initialState], h.2.1, h.2.2.2.2⟩

theorem connState_subscribeGeneric (k : SubKind) (thr : InFrame → Bool)
    (st : ClientState) : (subscribeGeneric k thr st).2.connState = st.connState := by
  simp only [subscribeGeneric, registryAdd]
  split <;> rfl

theorem connState_unsubRun (h : Nat) (st : ClientState) :
    (unsubRun h st).connState = st.connState := rfl

/-- C6: in the per-client machine, no step leaves the Closed state, and a
    step enters Closed only when the state was already Closed or the action
    is the explicit `disconnect()` call. -/
theorem closed_terminal (a : Action) (st : ClientState) :
    (st.connState = ConnState.Closed →
      (stepAction a st).connState = ConnState.Closed)
    ∧ ((stepAction a st).connState = ConnState.Closed →
      st.connState = ConnState.Closed ∨ a = Action.disconnectCall) := by
  cases a with
  | connectCall =>
    constructor <;> intro hc <;>
      simp only [stepAction, connect] at * <;> split at * <;> simp_all
  | handshake =>
    constructor <;> intro hc <;>
      simp only [stepAction, handshakeOk] at * <;> split at * <;> simp_all
  | lost =>
    constructor <;> intro hc <;>
      simp only [stepAction, transportLost] at * <;>
      split at * <;> (try split at *) <;> simp_all
  | reconnected =>
    constructor <;> intro hc <;>
      simp only [stepAction, reconnectOk] at * <;> split at * <;> simp_all
  | subMarket ids =>
    constructor <;> intro hc <;>
      simp_all [stepAction, subscribeMarket, connState_subscribeGeneric]
  | subUser c =>
    constructor <;> intro hc <;>
      simp_all [stepAction, subscribeUserEvents, connState_subscribeGeneric]
  | unsub h =>
    constructor <;> intro hc <;> simp_all [stepAction, connState_unsubRun]
  | disconnectCall =>
    constructor <;> intro hc
    · simp [stepAction, disconnect, hc]
    · right
      rfl

/-- C6 witness: from a Closed client, a `connect()` call stays Closed. -/
theorem closed_terminal_witness :
    (stepAction Action.connectCall
      { initialState true with connState := ConnState.Closed }).connState =
      ConnState.Closed :=
  (closed_terminal Action.connectCall _).1 rfl

theorem invocationsFor_append (h : Nat) (a b : List Invocation) :
    invocationsFor h (a ++ b) = invocationsFor h a ++ invocationsFor h b := by
  simp [invocationsFor, List.filter_append]

theorem dispatchAll_append (subs : List Subscription) (fr1 fr2 : List InFrame) :
    dispatchAll subs (fr1 ++ fr2) = dispatchAll subs fr1 ++ dispatchAll subs fr2 := by
  induction fr1 with
  | nil => rfl
  | cons f rest ih => simp [dispatchAll, ih]

theorem mem_dispatchOne (subs : List Subscription) (f : InFrame)
    (inv : Invocation) (hinv : inv ∈ dispatchOne subs f) :
    ∃ s ∈ subs, s.active = true ∧ s.handle = inv.target ∧ s.matches f = true := by
  simp only [dispatchOne, List.mem_map, List.mem_filter] at hinv
  obtain ⟨s, ⟨hmem, hmatch⟩, hg⟩ := hinv
  refine ⟨s, hmem, ?_, ?_, hmatch⟩
  · have := hmatch
    simp [Subscription.matches, Bool.and_eq_true] at this
    exact this.1
  · cases hthr : s.cbThrows f <;> simp [hthr] at hg <;>
      simp [← hg, Invocation.target]

theorem dispatchOne_removed (h : Nat) (subs : List Subscription) (f : InFrame) :
    invocationsFor h (dispatchOne (registryRemove h subs) f) = [] := by
  rw [invocationsFor, List.filter_eq_nil_iff]
  intro inv hinv
  obtain ⟨s, hmem, hact, hh, _⟩ := mem_dispatchOne _ _ _ hinv
  simp only [registryRemove, List.mem_map] at hmem
  obtain ⟨t, _, ht⟩ := hmem
  by_cases hth : (t.handle == h) = true
  · rw [if_pos hth] at ht
    rw [← ht] at hact
    simp at hact
  · rw [if_neg hth] at ht
    subst ht
    simp only [beq_iff_eq] at hth
    simp [hh] at hth
    simp [beq_iff_eq]
    omega

theorem dispatchAll_removed (h : Nat) (subs : List Subscription)
    (frames : List InFrame) :
    invocationsFor h (dispatchAll (registryRemove h subs) frames) = [] := by
  induction frames with
  | nil => rfl
  | cons f rest ih =>
    rw [dispatchAll, invocationsFor_append, dispatchOne_removed, ih]
    rfl

/-- C2: every callback invocation the dispatcher performs corresponds to a
    subscription that is active (and matches the frame) at delivery time —
    with distinct handles, to exactly one such subscription — and once a
    handle has been removed from the Registry (as `unsubscribe` does) no
    later frame produces any invocation for it; the dropped frames are not
    queued anywhere (dispatch returns only the invocation log and leaves
    the state untouched). -/
theorem unsubscribed_frames_dropped (subs : List Subscription) (f : InFrame)
    (frames : List InFrame) (h : Nat) (st : ClientState) :
    (∀ inv ∈ dispatchOne subs f,
      ∃ s ∈ subs, s.active = true ∧ s.handle = inv.target ∧ s.matches f = true)
    ∧ ((subs.map (fun s => s.handle)).Nodup →
      ∀ inv ∈ dispatchOne subs f,
        ∃! s, s ∈ subs ∧ s.active = true ∧ s.handle = inv.target
          ∧ s.matches f = true)
    ∧ invocationsFor h (dispatchAll (registryRemove h subs) frames) = []
    ∧ (unsubRun h st).subs = registryRemove h st.subs := by
  refine ⟨fun inv hinv => mem_dispatchOne subs f inv hinv, ?_,
    dispatchAll_removed h subs frames, rfl⟩
  intro hnd inv hinv
  obtain ⟨s, hmem, hact, hh, hm⟩ := mem_dispatchOne subs f inv hinv
  refine ⟨s, ⟨hmem, hact, hh, hm⟩, ?_⟩
  intro t ⟨htmem, _, hth, _⟩
  exact List.inj_on_of_nodup_map hnd htmem hmem (by rw [hth, hh])

/-- C2 witness: after removing handle 0, two user-channel frames produce no
    invocation for it. -/
theorem unsubscribed_frames_dropped_witness :
    invocationsFor 0 (dispatchAll
      (registryRemove 0 [⟨0, SubKind.user ⟨"k", "s", "p"⟩, true, fun _ => false⟩])
      [⟨ChannelKey.user, "A"⟩, ⟨ChannelKey.user, "B"⟩]) = [] :=
  (unsubscribed_frames_dropped
    [⟨0, SubKind.user ⟨"k", "s", "p"⟩, true, fun _ => false⟩]
    ⟨ChannelKey.user, "A"⟩
    [⟨ChannelKey.user, "A"⟩, ⟨ChannelKey.user, "B"⟩] 0
    (initialState true)).2.2.1

theorem target_invOf (t : Subscription) (f : InFrame) :
    (if t.cbThrows f then Invocation.onErrorCb t.handle f
     else Invocation.deliver t.handle f).target = t.handle := by
  cases h : t.cbThrows f <;> simp [h, Invocation.target]

theorem invocationsFor_dispatchOne_not_mem (subs : List Subscription) (h : Nat)
    (f : InFrame) (hh : h ∉ subs.map (fun s => s.handle)) :
    invocationsFor h (dispatchOne subs f) = [] := by
  rw [invocationsFor, List.filter_eq_nil_iff]
  intro inv hinv
  obtain ⟨s, hmem, _, hhandle, _⟩ := mem_dispatchOne _ _ _ hinv
  simp only [beq_iff_eq]
  intro heq
  exact hh (by rw [← heq, ← hhandle]; exact List.mem_map_of_mem _ hmem)

theorem invocationsFor_dispatchOne (subs : List Subscription) (s : Subscription)
    (f : InFrame) (hmem : s ∈ subs)
    (hnd : (subs.map (fun x => x.handle)).Nodup) :
    invocationsFor s.handle (dispatchOne subs f) =
      if s.matches f then
        [if s.cbThrows f then Invocation.onErrorCb s.handle f
         else Invocation.deliver s.handle f]
      else [] := by
  induction subs with
  | nil => cases hmem
  | cons t rest ih =>
    rw [List.map_cons, List.nodup_cons] at hnd
    rcases List.mem_cons.mp hmem with heq | hrest
    · subst heq
      have hrest0 : invocationsFor s.handle (dispatchOne rest f) = [] :=
        invocationsFor_dispatchOne_not_mem rest s.handle f hnd.1
      rw [dispatchOne, List.filter_cons]
      by_cases hm : s.matches f
      · simp only [hm, if_true, List.map_cons]
        rw [invocationsFor, List.filter_cons]
        simp only [target_invOf, beq_self_eq_true, if_true]
        rw [show List.filter (fun i => i.target == s.handle)
              (List.map (fun x => if x.cbThrows f then Invocation.onErrorCb x.handle f
                else Invocation.deliver x.handle f) (List.filter (fun x => x.matches f) rest)) =
            invocationsFor s.handle (dispatchOne rest f) from rfl, hrest0]
      · simp only [hm, Bool.false_eq_true, if_false]
        exact hrest0
    · have hne : t.handle ≠ s.handle := by
        intro he
        exact hnd.1 (he ▸ List.mem_map_of_mem (fun x => x.handle) hrest)
      rw [dispatchOne, List.filter_cons]
      by_cases hmt : t.matches f
      · simp only [hmt, if_true, List.map_cons]
        rw [invocationsFor, List.filter_cons]
        simp only [target_invOf]
        rw [if_neg (by simp [hne])]
        exact ih hrest hnd.2
      · simp only [hmt, Bool.false_eq_true, if_false]
        exact ih hrest hnd.2

/-- C3: for any subscription in a Registry with distinct handles, the
    sequence of callback invocations it receives from dispatching a frame
    list equals exactly the subsequence of frames addressed to it, in the
    order received from the transport (dispatch is sequential, so no two
    invocations of the same subscription are reordered or overlapped). -/
theorem per_subscription_order (subs : List Subscription) (s : Subscription)
    (frames : List InFrame) (hmem : s ∈ subs)
    (hnd : (subs.map (fun x => x.handle)).Nodup) :
    invocationsFor s.handle (dispatchAll subs frames) =
      (frames.filter (fun f => s.matches f)).map (fun f =>
        if s.cbThrows f then Invocation.onErrorCb s.handle f
        else Invocation.deliver s.handle f) := by
  induction frames with
  | nil => rfl
  | cons f rest ih =>
    rw [dispatchAll, invocationsFor_append,
      invocationsFor_dispatchOne subs s f hmem hnd, ih, List.filter_cons]
    by_cases hm : s.matches f
    · simp [hm]
    · simp [hm]

/-- C3 witness: three user-channel frames A, B, C reach the subscription's
    callback in order A, B, C. -/
theorem per_subscription_order_witness :
    invocationsFor 0 (dispatchAll
      [⟨0, SubKind.user ⟨"k", "s", "p"⟩, true, fun _ => false⟩]
      [⟨ChannelKey.user, "A"⟩, ⟨ChannelKey.user, "B"⟩, ⟨ChannelKey.user, "C"⟩]) =
      [Invocation.deliver 0 ⟨ChannelKey.user, "A"⟩,
       Invocation.deliver 0 ⟨ChannelKey.user, "B"⟩,
       Invocation.deliver 0 ⟨ChannelKey.user, "C"⟩] := by
  have h := per_subscription_order
    [⟨0, SubKind.user ⟨"k", "s", "p"⟩, true, fun _ => false⟩]
    ⟨0, SubKind.user ⟨"k", "s", "p"⟩, true, fun _ => false⟩
    [⟨ChannelKey.user, "A"⟩, ⟨ChannelKey.user, "B"⟩, ⟨ChannelKey.user, "C"⟩]
    (by simp) (by simp)
  simpa using h

theorem shape_invOf (t : Subscription) (f : InFrame) :
    (if t.cbThrows f then Invocation.onErrorCb t.handle f
     else Invocation.deliver t.handle f).shape = (t.handle, f) := by
  cases h : t.cbThrows f <;>
    simp [h, Invocation.shape, Invocation.target, Invocation.frame]

theorem strip_eq_parts (s t : Subscription) (h : s.strip = t.strip) :
    s.handle = t.handle ∧ s.kind = t.kind ∧ s.active = t.active := by
  simpa [Subscription.strip, Prod.ext_iff] using h

theorem matches_of_strip_eq (s t : Subscription) (h : s.strip = t.strip)
    (f : InFrame) : s.matches f = t.matches f := by
  obtain ⟨_, hk, ha⟩ := strip_eq_parts s t h
  simp [Subscription.matches, hk, ha]

theorem dispatchOne_shape_congr (subs subs' : List Subscription) (f : InFrame)
    (h : subs.map Subscription.strip = subs'.map Subscription.strip) :
    (dispatchOne subs f).map Invocation.shape =
    (dispatchOne subs' f).map Invocation.shape := by
  induction subs generalizing subs' with
  | nil =>
    cases subs' with
    | nil => rfl
    | cons t' r' => simp at h
  | cons t rest ih =>
    cases subs' with
    | nil => simp at h
    | cons t' rest' =>
      simp only [List.map_cons, List.cons.injEq] at h
      obtain ⟨hstrip, hrest⟩ := h
      have hm := matches_of_strip_eq t t' hstrip f
      have hh := (strip_eq_parts t t' hstrip).1
      rw [dispatchOne, dispatchOne, List.filter_cons, List.filter_cons]
      by_cases hmt : t.matches f
      · rw [if_pos hmt, if_pos (by rw [← hm]; exact hmt)]
        simp only [List.map_cons, shape_invOf]
        rw [hh]
        exact congrArg (List.cons (t'.handle, f)) (ih rest' hrest)
      · rw [if_neg hmt, if_neg (by rw [← hm]; exact hmt)]
        exact ih rest' hrest

theorem dispatchAll_shape_congr (subs subs' : List Subscription)
    (frames : List InFrame)
    (h : subs.map Subscription.strip = subs'.map Subscription.strip) :
    (dispatchAll subs frames).map Invocation.shape =
    (dispatchAll subs' frames).map Invocation.shape := by
  induction frames with
  | nil => rfl
  | cons f rest ih =>
    rw [dispatchAll, dispatchAll, List.map_append, List.map_append,
      dispatchOne_shape_congr subs subs' f h, ih]

/-- C4: a data callback that raises on a frame produces an `onError`
    invocation for that same subscription instead of crashing dispatch;
    dispatch of a frame list decomposes frame by frame, so every later
    frame is still dispatched; and which subscription receives which frame
    is completely independent of which callbacks throw. -/
theorem callback_error_isolated (subs subs' : List Subscription) (f : InFrame)
    (fr1 fr2 : List InFrame) (s : Subscription) :
    (dispatchAll subs (fr1 ++ f :: fr2) =
      dispatchAll subs fr1 ++ dispatchOne subs f ++ dispatchAll subs fr2)
    ∧ (s ∈ subs → s.matches f = true → s.cbThrows f = true →
        Invocation.onErrorCb s.handle f ∈ dispatchOne subs f)
    ∧ (s ∈ subs → s.matches f = true → s.cbThrows f = false →
        Invocation.deliver s.handle f ∈ dispatchOne subs f)
    ∧ (subs.map Subscription.strip = subs'.map Subscription.strip →
        (dispatchAll subs (fr1 ++ f :: fr2)).map Invocation.shape =
        (dispatchAll subs' (fr1 ++ f :: fr2)).map Invocation.shape) := by
  refine ⟨?_, ?_, ?_, fun h => dispatchAll_shape_congr subs subs' _ h⟩
  · rw [dispatchAll_append, dispatchAll, List.append_assoc]
  · intro hmem hmatch hthr
    rw [dispatchOne]
    exact List.mem_map.mpr
      ⟨s, List.mem_filter.mpr ⟨hmem, hmatch⟩, by simp [hthr]⟩
  · intro hmem hmatch hthr
    rw [dispatchOne]
    exact List.mem_map.mpr
      ⟨s, List.mem_filter.mpr ⟨hmem, hmatch⟩, by simp [hthr]⟩

/-- C4 witness: with a market subscription whose callback throws on frame
    B, frame B is routed to its `onError` and frame C is still delivered. -/
theorem callback_error_isolated_witness :
    Invocation.onErrorCb 0 ⟨ChannelKey.market "tok1", "B"⟩ ∈
      dispatchOne [⟨0, SubKind.market ["tok1"], true, fun fr => fr.payload == "B"⟩]
        ⟨ChannelKey.market "tok1", "B"⟩
    ∧ dispatchAll [⟨0, SubKind.market ["tok1"], true, fun fr => fr.payload == "B"⟩]
        ([⟨ChannelKey.market "tok1", "A"⟩] ++ ⟨ChannelKey.market "tok1", "B"⟩ ::
          [⟨ChannelKey.market "tok1", "C"⟩]) =
      dispatchAll [⟨0, SubKind.market ["tok1"], true, fun fr => fr.payload == "B"⟩]
          [⟨ChannelKey.market "tok1", "A"⟩] ++
        dispatchOne [⟨0, SubKind.market ["tok1"], true, fun fr => fr.payload == "B"⟩]
          ⟨ChannelKey.market "tok1", "B"⟩ ++
        dispatchAll [⟨0, SubKind.market ["tok1"], true, fun fr => fr.payload == "B"⟩]
          [⟨ChannelKey.market "tok1", "C"⟩] := by
  have h := callback_error_isolated
    [⟨0, SubKind.market ["tok1"], true, fun fr => fr.payload == "B"⟩]
    [⟨0, SubKind.market ["tok1"], true, fun fr => fr.payload == "B"⟩]
    ⟨ChannelKey.market "tok1", "B"⟩
    [⟨ChannelKey.market "tok1", "A"⟩] [⟨ChannelKey.market "tok1", "C"⟩]
    ⟨0, SubKind.market ["tok1"], true, fun fr => fr.payload == "B"⟩
  exact ⟨h.2.1 (by simp) rfl rfl, h.1⟩

theorem channelMatch_replaceCreds (c c' : Credentials) (k : SubKind)
    (key : ChannelKey) :
    (replaceCreds c k).channelMatch key = (replaceCreds c' k).channelMatch key := by
  cases k <;> cases key <;> rfl

theorem dispatchOne_setCreds (h : Nat) (c c' : Credentials)
    (subs : List Subscription) (f : InFrame) :
    dispatchOne (setCreds h c subs) f = dispatchOne (setCreds h c' subs) f := by
  induction subs with
  | nil => rfl
  | cons t rest ih =>
    simp only [setCreds, List.map_cons]
    rw [dispatchOne, List.filter_cons, dispatchOne, List.filter_cons]
    by_cases hth : (t.handle == h) = true
    · rw [if_pos hth, if_pos hth]
      have hm : ({ t with kind := replaceCreds c t.kind } : Subscription).matches f
          = ({ t with kind := replaceCreds c' t.kind } : Subscription).matches f := by
        simp [Subscription.matches, channelMatch_replaceCreds c c' t.kind f.key]
      by_cases hmt : ({ t with kind := replaceCreds c t.kind } : Subscription).matches f
      · rw [if_pos hmt, if_pos (by rw [← hm]; exact hmt),
          List.map_cons, List.map_cons]
        exact congrArg₂ List.cons rfl ih
      · rw [if_neg hmt, if_neg (by rw [← hm]; exact hmt)]
        exact ih
    · rw [if_neg hth, if_neg hth]
      by_cases hmt : t.matches f
      · rw [if_pos hmt, if_pos hmt, List.map_cons, List.map_cons]
        exact congrArg₂ List.cons rfl ih
      · rw [if_neg hmt, if_neg hmt]
        exact ih

theorem dispatchAll_setCreds (h : Nat) (c c' : Credentials)
    (subs : List Subscription) (frames : List InFrame) :
    dispatchAll (setCreds h c subs) frames =
      dispatchAll (setCreds h c' subs) frames := by
  induction frames with
  | nil => rfl
  | cons f rest ih =>
    rw [dispatchAll, dispatchAll, dispatchOne_setCreds h c c' subs f, ih]

theorem setCreds_other_unchanged (h : Nat) (c : Credentials)
    (subs : List Subscription) :
    (setCreds h c subs).filter (fun s => !(s.handle == h)) =
      subs.filter (fun s => !(s.handle == h)) := by
  induction subs with
  | nil => rfl
  | cons t rest ih =>
    simp only [setCreds, List.map_cons, List.filter_cons]
    by_cases hth : (t.handle == h) = true
    · rw [if_pos hth]
      simp only [hth, Bool.not_true]
      rw [if_neg (by simp), if_neg (by simp)]
      exact ih
    · rw [if_neg hth]
      by_cases hb : (!(t.handle == h)) = true
      · rw [if_pos hb, if_pos hb]
        exact congrArg (List.cons t) ih
      · rw [if_neg hb, if_neg hb]
        exact ih

theorem creds_zeroed_on_remove (h : Nat) (subs : List Subscription) :
    ∀ s ∈ registryRemove h subs, s.handle = h →
      s.kind.auth = none ∨ s.kind.auth = some ⟨"", "", ""⟩ := by
  intro s hmem hsh
  simp only [registryRemove, List.mem_map] at hmem
  obtain ⟨t, _, ht⟩ := hmem
  by_cases hth : (t.handle == h) = true
  · rw [if_pos hth] at ht
    subst ht
    cases hk : t.kind <;> simp [scrub, SubKind.auth, hk]
  · rw [if_neg hth] at ht
    subst ht
    simp [hsh] at hth

/-- C7: the credential triple given to `subscribeUserEvents` is attached to
    that subscription's outbound subscribe frame; two Registries differing
    only in one subscription's triple dispatch every frame list to exactly
    the same invocations, and all entries for other handles are identical
    records, so no other subscriber's callbacks can observe the triple; and
    on Registry remove the stored triple is zeroed/discarded. -/
theorem credentials_isolated (st : ClientState) (c c' cNew : Credentials)
    (thr : InFrame → Bool) (h : Nat) (subs : List Subscription)
    (frames : List InFrame) :
    (st.connState = ConnState.Connected →
      (subscribeUserEvents c thr st).2.sent =
        st.sent ++ [OutFrame.subscribe Channel.user [] (some c)])
    ∧ dispatchAll (setCreds h c subs) frames = dispatchAll (setCreds h c' subs) frames
    ∧ (setCreds h cNew subs).filter (fun s => !(s.handle == h)) =
        subs.filter (fun s => !(s.handle == h))
    ∧ (∀ s ∈ registryRemove h subs, s.handle = h →
        s.kind.auth = none ∨ s.kind.auth = some ⟨"", "", ""⟩) := by
  refine ⟨?_, dispatchAll_setCreds h c c' subs frames,
    setCreds_other_unchanged h cNew subs, creds_zeroed_on_remove h subs⟩
  intro hc
  simp [subscribeUserEvents, subscribeGeneric, registryAdd, hc, subscribeFrameOf,
    SubKind.channel, SubKind.filters, SubKind.auth]

/-- C7 witness: after removing the user subscription with handle 0, its
    stored triple is zeroed. -/
theorem credentials_isolated_witness :
    (SubKind.user (⟨"", "", ""⟩ : Credentials)).auth = none
    ∨ (SubKind.user (⟨"", "", ""⟩ : Credentials)).auth = some ⟨"", "", ""⟩ :=
  (credentials_isolated (initialState true) ⟨"k", "s", "p"⟩ ⟨"k2", "s2", "p2"⟩
    ⟨"k3", "s3", "p3"⟩ (fun _ => false) 0
    [⟨0, SubKind.user ⟨"k", "s", "p"⟩, true, fun _ => false⟩] []).2.2.2
    ⟨0, SubKind.user ⟨"", "", ""⟩, false, fun _ => false⟩
    (List.mem_singleton.mpr rfl) rfl

theorem scrub_scrub (k : SubKind) : scrub (scrub k) = scrub k := by
  cases k <;> rfl

theorem registryRemove_idem (h : Nat) (subs : List Subscription) :
    registryRemove h (registryRemove h subs) = registryRemove h subs := by
  induction subs with
  | nil => rfl
  | cons t rest ih =>
    simp only [registryRemove, List.map_cons] at ih ⊢
    refine congrArg₂ List.cons ?_ ih
    by_cases hth : (t.handle == h) = true
    · simp [hth, scrub_scrub]
    · simp [hth]

/-- C8: `unsubscribe` always returns successfully (it cannot throw); it
    applies Registry remove; it appends an unsubscribe frame exactly when
    the client is Connected (and the handle is still active); and remove is
    idempotent — removing an already-removed handle changes nothing. -/
theorem unsubscribe_never_throws (h : Nat) (st : ClientState)
    (subs : List Subscription) (s : Subscription) :
    (∃ st', unsubscribe h st = Except.ok st')
    ∧ (unsubRun h st).subs = registryRemove h st.subs
    ∧ (st.connState ≠ ConnState.Connected → (unsubRun h st).sent = st.sent)
    ∧ (st.connState = ConnState.Connected → findActive h st.subs = some s →
        (unsubRun h st).sent =
          st.sent ++ [OutFrame.unsubscribe s.kind.channel s.kind.filters])
    ∧ registryRemove h (registryRemove h subs) = registryRemove h subs := by
  refine ⟨⟨_, rfl⟩, rfl, ?_, ?_, registryRemove_idem h subs⟩
  · intro hc
    simp [unsubRun, unsubscribe, hc]
  · intro hc hfind
    simp [unsubRun, unsubscribe, hc, hfind]

/-- C8 witness: unsubscribing handle 0 of a Connected client succeeds,
    removes it from the Registry, sends one unsubscribe frame, and a second
    remove is a no-op. -/
theorem unsubscribe_never_throws_witness :
    (unsubRun 0 { initialState true with
      connState := ConnState.Connected
      subs := [⟨0, SubKind.market ["tok1"], true, fun _ => false⟩]
      nextHandle := 1 }).sent =
      (initialState true).sent ++ [OutFrame.unsubscribe Channel.market ["tok1"]]
    ∧ registryRemove 0 (registryRemove 0
        [⟨0, SubKind.market ["tok1"], true, fun _ => false⟩]) =
      registryRemove 0 [⟨0, SubKind.market ["tok1"], true, fun _ => false⟩] := by
  have hw := unsubscribe_never_throws 0
    { initialState true with
      connState := ConnState.Connected
      subs := [⟨0, SubKind.market ["tok1"], true, fun _ => false⟩]
      nextHandle := 1 }
    [⟨0, SubKind.market ["tok1"], true, fun _ => false⟩]
    ⟨0, SubKind.market ["tok1"], true, fun _ => false⟩
  exact ⟨hw.2.2.2.1 rfl rfl, hw.2.2.2.2⟩

/-- C1: a successful reconnect re-sends exactly one subscribe frame per
    currently-active Registry subscription (one frame per snapshot entry,
    built from the stored kind); the Registry stores exactly the
    filter/credential data the subscribe call passed; other entries are
    untouched by a remove of a different handle; and in the concrete
    two-subscription run (one market, one user) the replay re-sends exactly
    the two original subscribe frames verbatim. -/
theorem reconnect_replays_subscriptions (st : ClientState) (ids : List String)
    (c : Credentials) (thr : InFrame → Bool) (h : Nat) (s : Subscription) :
    (st.connState = ConnState.Reconnecting →
      (reconnectOk st).sent = st.sent ++ (listActive st.subs).map subscribeFrameOf
      ∧ (reconnectOk st).sent.length = st.sent.length + (listActive st.subs).length)
    ∧ ((subscribeMarket ids thr st).2.subs =
        st.subs ++ [⟨st.nextHandle, SubKind.market ids, true, thr⟩])
    ∧ ((subscribeUserEvents c thr st).2.subs =
        st.subs ++ [⟨st.nextHandle, SubKind.user c, true, thr⟩])
    ∧ (s ∈ st.subs → s.handle ≠ h → s ∈ registryRemove h st.subs)
    ∧ (runActions [Action.connectCall, Action.handshake, Action.subMarket ids,
        Action.subUser c, Action.lost, Action.reconnected] (initialState true)).sent =
        [OutFrame.subscribe Channel.market ids none,
         OutFrame.subscribe Channel.user [] (some c),
         OutFrame.subscribe Channel.market ids none,
         OutFrame.subscribe Channel.user [] (some c)] := by
  refine ⟨?_, ?_, ?_, ?_, ?_⟩
  · intro hc
    constructor
    · simp [reconnectOk, hc]
    · simp [reconnectOk, hc]
  · simp only [subscribeMarket, subscribeGeneric, registryAdd]
    split <;> rfl
  · simp only [subscribeUserEvents, subscribeGeneric, registryAdd]
    split <;> rfl
  · intro hmem hne
    refine List.mem_map.mpr ⟨s, hmem, ?_⟩
    simp [hne]
  · rfl

/-- C1 witness: with one market and one user subscription active, the
    reconnect replay re-sends exactly the two original subscribe frames. -/
theorem reconnect_replays_subscriptions_witness :
    (runActions [Action.connectCall, Action.handshake, Action.subMarket ["tok1"],
      Action.subUser ⟨"k", "s", "p"⟩, Action.lost, Action.reconnected]
      (initialState true)).sent =
      [OutFrame.subscribe Channel.market ["tok1"] none,
       OutFrame.subscribe Channel.user [] (some ⟨"k", "s", "p"⟩),
       OutFrame.subscribe Channel.market ["tok1"] none,
       OutFrame.subscribe Channel.user [] (some ⟨"k", "s", "p"⟩)] :=
  (reconnect_replays_subscriptions (initialState true) ["tok1"] ⟨"k", "s", "p"⟩
    (fun _ => false) 0
    ⟨0, SubKind.market ["tok1"], true, fun _ => false⟩).2.2.2.2

end PolySdk
